import Mathlib

/-!
Verification development for the QUIC connection driver and stream muxer
of the rust-libp2p QUIC transport (src/transports/quic/src/connection.rs).

The muxer state and every facade operation are shallowly embedded as
executable Lean functions.  The quinn-proto QUIC state machine is an
external collaborator: the parts of its visible state that the muxer
consults (is_closed, is_drained, the queue of application events, and the
outbound-stream credit used by open) are carried in a small record, and
the results of its per-call stream operations (read, write, finish, the
oneshot channel poll) are supplied as explicit oracle arguments.  Waker
wakes, oneshot signals and calls into the QUIC machine are recorded in an
effect list so that theorems can speak about what a call did.
Debug-only assertions of the source are modelled with release semantics
(no-ops); hard assertions and unreachable branches are modelled by
returning none.
-/

namespace QuicMux

abbrev StreamId := Nat
abbrev Waker := Nat

/-- quinn_proto::ConnectionError, restricted to the shapes the muxer
inspects: ApplicationClosed carries an error code and a reason blob,
LocallyClosed is the reason installed by a local close, and Other covers
every remaining transport-level cause. -/
inductive ConnectionError where
  | ApplicationClosed (error_code : Nat) (reason : List Nat)
  | LocallyClosed
  | Other (n : Nat)
deriving DecidableEq, Repr

/-- crate::error::Error, the facade error type.  The IO variant of the
source is named IOErr here because of Lean naming constraints. -/
inductive Error where
  | ConnectionError (e : ConnectionError)
  | ExpiredStream
  | Stopped (code : Nat)
  | Reset (code : Nat)
  | IOErr
deriving DecidableEq, Repr

/-- std::task::Poll. -/
inductive Poll (α : Type) where
  | Ready (a : α)
  | Pending
deriving DecidableEq, Repr

def Poll.isReady {α : Type} : Poll α → Bool
  | .Ready _ => true
  | .Pending => false

/-- Result of a fallible facade call. -/
inductive Res (α : Type) where
  | ok (a : α)
  | err (e : Error)
deriving DecidableEq, Repr

/-- SubstreamStatus from the source; the Finishing variant carries the
oneshot receiver, identified by a token. -/
inductive SubstreamStatus where
  | Live
  | Finishing (chan : Nat)
  | Finished
deriving DecidableEq, Repr

/-- QuicSubstream: a stream id plus its local status. -/
structure QuicSubstream where
  id : StreamId
  status : SubstreamStatus
deriving DecidableEq, Repr

def QuicSubstream.is_live (s : QuicSubstream) : Bool :=
  match s.status with
  | .Live => true
  | .Finishing _ => false
  | .Finished => false

/-- Application events produced by the QUIC state machine
(quinn_proto::Event), bidirectional variants only; the unidirectional and
datagram variants are forbidden by transport config and not modelled. -/
inductive QEvent where
  | streamReadable (id : StreamId)
  | streamWritable (id : StreamId)
  | streamAvailableBi
  | streamOpenedBi
  | streamFinished (id : StreamId) (stopReason : Option Nat)
  | connected
  | connectionLost (reason : ConnectionError)
deriving DecidableEq, Repr

/-- The externally visible state of the quinn_proto::Connection that the
muxer consults: closed and drained flags, the queue of application events
that poll() will yield, and a stream allocator for open(Dir::Bi) given as
a credit counter plus the next fresh id. -/
structure Conn where
  isClosed : Bool
  isDrained : Bool
  queue : List QEvent
  openCredit : Nat
  nextId : StreamId
deriving DecidableEq, Repr

/-- quinn open(Dir::Bi): yields a fresh id while credit remains and the
connection is not closed. -/
def Conn.openBi (c : Conn) : Option (StreamId × Conn) :=
  if c.isClosed || c.openCredit == 0 then none
  else some (c.nextId, { c with openCredit := c.openCredit - 1, nextId := c.nextId + 1 })

/-- Observable side effects of a muxer operation: waker wakes, oneshot
signals, stream deliveries to pending openers, and calls into the QUIC
machine or the driver handle. -/
inductive Effect where
  | wake (w : Waker)
  | signal (tok : Nat)
  | sendStream (tok : Nat) (id : StreamId)
  | connFinish (id : StreamId)
  | connStopSending (id : StreamId) (code : Nat)
  | connClose (code : Nat)
  | driverPoll
deriving DecidableEq, Repr

/-- Association-list lookup, modelling HashMap::get. -/
def alookup {α : Type} : List (Nat × α) → Nat → Option α
  | [], _ => none
  | (k, v) :: rest, key => if k = key then some v else alookup rest key

/-- Association-list insert, modelling HashMap::insert (replaces any
previous binding). -/
def ainsert {α : Type} (l : List (Nat × α)) (key : Nat) (v : α) : List (Nat × α) :=
  (key, v) :: l.filter (fun p => p.1 ≠ key)

/-- Association-list removal, modelling HashMap::remove. -/
def aerase {α : Type} (l : List (Nat × α)) (key : Nat) : List (Nat × α) :=
  l.filter (fun p => p.1 ≠ key)

/-- The Muxer record from the source.  connectors is the FIFO of pending
outbound-open oneshot senders, each paired with a flag saying whether its
receiver is still alive; pending and timer bookkeeping that no claim
touches is omitted. -/
structure Muxer where
  pending_stream : Option StreamId
  connection : Conn
  writers : List (StreamId × Waker)
  readers : List (StreamId × Waker)
  finishers : List (StreamId × Option Nat)
  handshake_waker : Option Waker
  accept_waker : Option Waker
  connectors : List (Nat × Bool)
  close_reason : Option ConnectionError
  waker : Option Waker
  close_waker : Option Waker
  connection_lost : Bool
deriving DecidableEq, Repr

/-- Muxer::new: everything empty, connection fresh. -/
def Muxer.new : Muxer where
  pending_stream := none
  connection := { isClosed := false, isDrained := false, queue := [], openCredit := 0, nextId := 0 }
  writers := []
  readers := []
  finishers := []
  handshake_waker := none
  accept_waker := none
  connectors := []
  close_reason := none
  waker := none
  close_waker := none
  connection_lost := false

/-- Effect of waking an optional waker slot. -/
def optWake : Option Waker → List Effect
  | some w => [.wake w]
  | none => []

/-- Muxer::wake_driver: take and wake the driver waker if present. -/
def wake_driver (m : Muxer) : Muxer × List Effect :=
  match m.waker with
  | some w => ({ m with waker := none }, [.wake w])
  | none => (m, [])

/-- Oracle for a quinn write call. -/
inductive WriteResult where
  | ok (n : Nat)
  | blocked
  | unknownStream
  | stopped (code : Nat)
deriving DecidableEq, Repr

/-- Oracle for a quinn read call. -/
inductive ReadResult where
  | okSome (n : Nat)
  | okNone
  | blocked
  | unknownStream
  | reset (code : Nat)
deriving DecidableEq, Repr

/-- Oracle for a quinn finish call. -/
inductive FinishResult where
  | ok
  | unknownStream
  | stopped (code : Nat)
deriving DecidableEq, Repr

/-- Oracle for polling the oneshot receiver in a Finishing substream. -/
inductive ChanPoll where
  | pending
  | ok
  | canceled
deriving DecidableEq, Repr

/-- Muxer::get_pending_stream: wake the driver, then take the cached
pending stream or ask the QUIC machine to open a fresh one; on success
record an empty finishers entry for the id. -/
def get_pending_stream (m : Muxer) : Option StreamId × Muxer × List Effect :=
  let (m1, e1) := wake_driver m
  match m1.pending_stream with
  | some id =>
      (some id,
       { m1 with pending_stream := none, finishers := ainsert m1.finishers id none }, e1)
  | none =>
      match m1.connection.openBi with
      | some (id, c) =>
          (some id, { m1 with connection := c, finishers := ainsert m1.finishers id none }, e1)
      | none => (none, m1, e1)

/-- The OutboundInner token returned by open_outbound (the Done variant,
reached only after yielding Ready, is not needed here). -/
inductive OutboundInner where
  | Complete (r : Res StreamId)
  | Pending (receiver : Nat)
deriving DecidableEq, Repr

/-- StreamMuxer::open_outbound.  fresh is the token of the oneshot channel
created in the connector branch. -/
def open_outbound (m : Muxer) (fresh : Nat) : OutboundInner × Muxer × List Effect :=
  match m.close_reason with
  | some e => (.Complete (.err (.ConnectionError e)), m, [])
  | none =>
      match get_pending_stream m with
      | (some id, m1, e1) => (.Complete (.ok id), m1, e1)
      | (none, m1, e1) =>
          let m2 := { m1 with connectors := (fresh, true) :: m1.connectors }
          let (m3, e2) := wake_driver m2
          (.Pending fresh, m3, e1 ++ e2)

/-- StreamMuxer::destroy_substream: wake and drop both direction wakers,
finish only a still-live stream on a not-yet-closing connection, and
always issue stop_sending with code 0. -/
def destroy_substream (m : Muxer) (s : QuicSubstream) : Muxer × List Effect :=
  let ew := optWake (alookup m.writers s.id)
  let er := optWake (alookup m.readers s.id)
  let ef := if s.is_live && m.close_reason.isNone then [Effect.connFinish s.id] else []
  ({ m with writers := aerase m.writers s.id, readers := aerase m.readers s.id },
   ew ++ er ++ ef ++ [Effect.connStopSending s.id 0])

/-- StreamMuxer::poll_inbound.  acceptRes is the oracle for the quinn
accept(Dir::Bi) call; the drained branch panics (none) when no close
reason was latched, mirroring the expect in the source. -/
def poll_inbound (m : Muxer) (w : Waker) (acceptRes : Option StreamId) :
    Option (Poll (Res QuicSubstream) × Muxer × List Effect) :=
  if m.connection.isDrained then
    match m.close_reason with
    | some e => some (.Ready (.err (.ConnectionError e)), m, [])
    | none => none
  else
    let (m1, e1) := wake_driver m
    match acceptRes with
    | none =>
        let eo := optWake m1.accept_waker
        some (.Pending, { m1 with accept_waker := some w }, e1 ++ eo)
    | some id =>
        some (.Ready (.ok ⟨id, .Live⟩),
              { m1 with finishers := ainsert m1.finishers id none }, e1)

/-- StreamMuxer::write_substream.  res is the oracle for the quinn write;
the source checks liveness before anything else, merely debug-asserts the
finishers entry (a no-op in release), and hard-asserts the connection is
not drained (modelled as none). -/
def write_substream (m : Muxer) (s : QuicSubstream) (w : Waker) (res : WriteResult) :
    Option (Poll (Res Nat) × QuicSubstream × Muxer × List Effect) :=
  if s.is_live = false then some (.Ready (.err .ExpiredStream), s, m, [])
  else
    let (m1, e1) := wake_driver m
    match m1.close_reason with
    | some e => some (.Ready (.err (.ConnectionError e)), s, m1, e1)
    | none =>
        if m1.connection.isDrained then none
        else
          match res with
          | .ok n => some (.Ready (.ok n), s, m1, e1)
          | .blocked =>
              let eo := optWake (alookup m1.writers s.id)
              some (.Pending, s, { m1 with writers := ainsert m1.writers s.id w }, e1 ++ eo)
          | .unknownStream => some (.Ready (.err .ExpiredStream), s, m1, e1)
          | .stopped c =>
              let eo := optWake (alookup m1.writers s.id)
              some (.Ready (.err (.Stopped c)), { s with status := .Finished },
                    { m1 with finishers := aerase m1.finishers s.id,
                              writers := aerase m1.writers s.id }, e1 ++ eo)

/-- StreamMuxer::read_substream.  res is the oracle for the quinn read;
the Blocked case inspects close_reason, treating an application close with
code 0 and empty reason as clean EOF, as the source does to work around a
quinn bug. -/
def read_substream (m : Muxer) (s : QuicSubstream) (w : Waker) (res : ReadResult) :
    Poll (Res Nat) × Muxer × List Effect :=
  let (m1, e1) := wake_driver m
  match res with
  | .okSome n => (.Ready (.ok n), m1, e1)
  | .okNone => (.Ready (.ok 0), m1, e1)
  | .blocked =>
      match m1.close_reason with
      | none =>
          let eo := optWake (alookup m1.readers s.id)
          (.Pending, { m1 with readers := ainsert m1.readers s.id w }, e1 ++ eo)
      | some (.ApplicationClosed 0 []) =>
          let eo := optWake (alookup m1.readers s.id)
          (.Ready (.ok 0), { m1 with readers := aerase m1.readers s.id }, e1 ++ eo)
      | some e => (.Ready (.err (.ConnectionError e)), m1, e1)
  | .unknownStream => (.Ready (.err .ExpiredStream), m1, e1)
  | .reset c =>
      let eo := optWake (alookup m1.readers s.id)
      (.Ready (.err (.Reset c)), { m1 with readers := aerase m1.readers s.id }, e1 ++ eo)

/-- StreamMuxer::shutdown_substream.  fres is the oracle for quinn finish,
chan the oracle for polling a Finishing receiver, fresh the token of the
oneshot created on success.  The unreachable arms of the source are
modelled as none. -/
def shutdown_substream (m : Muxer) (s : QuicSubstream) (fres : FinishResult)
    (chan : ChanPoll) (fresh : Nat) :
    Option (Poll (Res Unit) × QuicSubstream × Muxer × List Effect) :=
  match s.status with
  | .Finished => some (.Ready (.ok ()), s, m, [])
  | .Finishing _ =>
      let (m1, e1) := wake_driver m
      match chan with
      | .pending => some (.Pending, s, m1, e1)
      | .ok => some (.Ready (.ok ()), s, m1, e1)
      | .canceled => some (.Ready (.err .IOErr), s, m1, e1)
  | .Live =>
      let (m1, e1) := wake_driver m
      match fres with
      | .unknownStream => none
      | .stopped c => some (.Ready (.err (.Stopped c)), s, m1, e1 ++ [.connFinish s.id])
      | .ok =>
          match alookup m1.finishers s.id with
          | some none =>
              some (.Pending, { s with status := .Finishing fresh },
                    { m1 with finishers := ainsert m1.finishers s.id (some fresh) },
                    e1 ++ [.connFinish s.id])
          | _ => none

/-- StreamMuxer::flush_substream: unconditionally Ready(Ok(())). -/
def flush_substream (m : Muxer) (_s : QuicSubstream) (_w : Waker) :
    Poll (Res Unit) × Muxer × List Effect :=
  (.Ready (.ok ()), m, [])

/-- StreamMuxer::flush_all: unconditionally Ready(Ok(())). -/
def flush_all (m : Muxer) (_w : Waker) : Poll (Res Unit) × Muxer × List Effect :=
  (.Ready (.ok ()), m, [])

/-- The waking-and-truncation prefix of Muxer::shutdown: wake the accept
and handshake wakers, drain and wake all writers and readers, signal every
pending finisher, and truncate connectors. -/
def shutdownWake (m : Muxer) : Muxer × List Effect :=
  let ea := optWake m.accept_waker
  let eh := optWake m.handshake_waker
  let ew := m.writers.map (fun p => Effect.wake p.2)
  let er := m.readers.map (fun p => Effect.wake p.2)
  let ef := m.finishers.filterMap (fun p => p.2.map Effect.signal)
  ({ m with accept_waker := none, handshake_waker := none,
            writers := [], readers := [], finishers := [], connectors := [] },
   ea ++ eh ++ ew ++ er ++ ef)

/-- Muxer::shutdown specialized to an already-closed connection, which is
what the ConnectionLost handler reaches: the wake-and-truncate prefix plus
the final wake_driver, with the close-and-drain branch skipped. -/
def shutdownClosed (m : Muxer) : Muxer × List Effect :=
  let (m1, e1) := shutdownWake m
  let (m2, e2) := wake_driver m1
  (m2, e1 ++ e2)

/-- Delivery loop of the StreamAvailable handler: pop requesters from the
front until one whose receiver is alive accepts the stream; report whether
delivery succeeded. -/
def deliverStream : List (Nat × Bool) → StreamId → List (Nat × Bool) × Bool × List Effect
  | [], _ => ([], false, [])
  | (tok, alive) :: rest, id =>
      if alive then (rest, true, [.sendStream tok id])
      else deliverStream rest id

/-- Dispatch of one quinn_proto::Event in Muxer::process_app_events.
Assertion failures and failed expects of the source are modelled as none.
The ConnectionLost arm latches the close reason, wakes the close waker,
and re-runs shutdown, which on the (asserted) already-closed connection
reduces to shutdownClosed. -/
def processEvent (m : Muxer) (e : QEvent) : Option (Muxer × List Effect) :=
  match e with
  | .streamReadable id =>
      match alookup m.readers id with
      | some w => some ({ m with readers := aerase m.readers id }, [.wake w])
      | none => some (m, [])
  | .streamWritable id =>
      match alookup m.writers id with
      | some w => some ({ m with writers := aerase m.writers id }, [.wake w])
      | none => some (m, [])
  | .streamAvailableBi =>
      if m.connectors.isEmpty then some (m, [])
      else if m.pending_stream.isSome then none
      else
        match m.connection.openBi with
        | none => none
        | some (id, c) =>
            match deliverStream m.connectors id with
            | (rest, true, es) =>
                some ({ m with connection := c, connectors := rest }, es)
            | (_, false, es) =>
                some ({ m with connection := c, connectors := [],
                               pending_stream := some id }, es)
  | .streamOpenedBi =>
      match m.accept_waker with
      | some w => some ({ m with accept_waker := none }, [.wake w])
      | none => some (m, [])
  | .streamFinished id _ =>
      let ew := optWake (alookup m.writers id)
      match alookup m.finishers id with
      | none => none
      | some sOpt =>
          let m1 := { m with writers := aerase m.writers id,
                             finishers := aerase m.finishers id }
          let es := match sOpt with
            | some tok => [Effect.signal tok]
            | none => []
          if m1.finishers.isEmpty then
            let ec := optWake m1.close_waker
            some ({ m1 with close_waker := none }, ew ++ es ++ ec)
          else some (m1, ew ++ es)
  | .connected =>
      match m.handshake_waker with
      | some w => some ({ m with handshake_waker := none }, [.wake w])
      | none => some (m, [])
  | .connectionLost r =>
      if m.connection.isClosed = false then none
      else
        let ec := optWake m.close_waker
        let m1 := { m with close_reason := some r, connection_lost := true,
                           close_waker := none }
        let (m2, es) := shutdownClosed m1
        some (m2, ec ++ es)

/-- The event drain of Muxer::process_app_events, folded over the list of
events the quinn machine will yield. -/
def drainEvents : Muxer → List QEvent → Option (Muxer × List Effect)
  | m, [] => some (m, [])
  | m, e :: rest =>
      match processEvent m e with
      | none => none
      | some (m1, es1) =>
          match drainEvents m1 rest with
          | none => none
          | some (m2, es2) => some (m2, es1 ++ es2)

/-- Muxer::process_app_events: drain the queued quinn events one by one
(the keep_going flag of the source is not modelled). -/
def process_app_events (m : Muxer) : Option (Muxer × List Effect) :=
  drainEvents { m with connection := { m.connection with queue := [] } } m.connection.queue

/-- Muxer::shutdown(error_code): wake everything, truncate connectors,
and if the QUIC machine is not yet closed, close it and drain its events
once more; finally wake the driver. -/
def shutdown (m : Muxer) (code : Nat) : Option (Muxer × List Effect) :=
  let (m1, e1) := shutdownWake m
  if m1.connection.isClosed then
    let (m2, e2) := wake_driver m1
    some (m2, e1 ++ e2)
  else
    let m2 := { m1 with connection := { m1.connection with isClosed := true } }
    match process_app_events m2 with
    | none => none
    | some (m3, e3) =>
        let (m4, e4) := wake_driver m3
        some (m4, e1 ++ [.connClose code] ++ e3 ++ e4)

/-- StreamMuxer::close.  Already closed or already latched: Ready.  No
finishers outstanding: run shutdown(0), latch LocallyClosed, poll the
driver handle, Ready.  A close is already being awaited: replace the
close waker (without waking the old one), Pending.  Otherwise install the
close waker and issue finish for every finisher entry that is not already
awaited by a shutdown_substream, Pending. -/
def close (m : Muxer) (w : Waker) : Option (Poll (Res Unit) × Muxer × List Effect) :=
  if m.connection.isClosed then some (.Ready (.ok ()), m, [])
  else if m.close_reason.isSome then some (.Ready (.ok ()), m, [])
  else if m.finishers.isEmpty then
    match shutdown m 0 with
    | none => none
    | some (m1, e1) =>
        some (.Ready (.ok ()), { m1 with close_reason := some .LocallyClosed },
              e1 ++ [.driverPoll])
  else if m.close_waker.isSome then
    some (.Pending, { m with close_waker := some w }, [])
  else
    let ef := m.finishers.filterMap
      (fun p => match p.2 with
        | none => some (Effect.connFinish p.1)
        | some _ => none)
    some (.Pending, { m with close_waker := some w }, ef)

/-- The reset code used by Drop for Muxer. -/
def RESET : Nat := 1

/-- One atomic step on the shared Muxer state: a facade call (with its
oracle arguments), the driver draining queued events or parking its waker,
the endpoint delivering an event into the quinn queue, dropping an
outbound-open future (its oneshot receiver dies), Drop for Muxer, or the
quinn machine reaching the drained state. -/
inductive Op where
  | inject (e : QEvent)
  | procEvents
  | openOutbound (fresh : Nat)
  | dropOutbound (tok : Nat)
  | pollInbound (w : Waker) (acceptRes : Option StreamId)
  | writeSub (sid : StreamId) (st : SubstreamStatus) (w : Waker) (res : WriteResult)
  | readSub (sid : StreamId) (st : SubstreamStatus) (w : Waker) (res : ReadResult)
  | shutdownSub (sid : StreamId) (st : SubstreamStatus) (fres : FinishResult)
      (chan : ChanPoll) (fresh : Nat)
  | destroySub (sid : StreamId) (st : SubstreamStatus)
  | closeOp (w : Waker)
  | dropMuxer
  | flushOp
  | parkDriver (w : Waker)
  | markDrained
deriving DecidableEq, Repr

/-- Execute one step.  Event injection models the endpoint feeding the
quinn machine: a ConnectionLost can only be produced while the machine is
not yet closed and closes it (the quinn contract: the event is emitted
exactly once, at the transition into the closed state), a StreamAvailable
grants one unit of open credit, and the machine drains only after it has
closed.  none is a stuck step: a panicked assertion or a contract
violation by the environment. -/
def runOp (m : Muxer) : Op → Option (Muxer × List Effect)
  | .inject e =>
      match e with
      | .connectionLost _ =>
          if m.connection.isClosed then none
          else some ({ m with connection :=
            { m.connection with isClosed := true, queue := m.connection.queue ++ [e] } }, [])
      | .streamAvailableBi =>
          some ({ m with connection :=
            { m.connection with openCredit := m.connection.openCredit + 1,
                                queue := m.connection.queue ++ [e] } }, [])
      | _ =>
          some ({ m with connection :=
            { m.connection with queue := m.connection.queue ++ [e] } }, [])
  | .procEvents => process_app_events m
  | .openOutbound fresh =>
      match open_outbound m fresh with
      | (_, m1, es) => some (m1, es)
  | .dropOutbound tok =>
      some ({ m with connectors :=
        m.connectors.map (fun p => if p.1 = tok then (p.1, false) else p) }, [])
  | .pollInbound w acc =>
      match poll_inbound m w acc with
      | none => none
      | some (_, m1, es) => some (m1, es)
  | .writeSub sid st w res =>
      match write_substream m ⟨sid, st⟩ w res with
      | none => none
      | some (_, _, m1, es) => some (m1, es)
  | .readSub sid st w res =>
      match read_substream m ⟨sid, st⟩ w res with
      | (_, m1, es) => some (m1, es)
  | .shutdownSub sid st fres chan fresh =>
      match shutdown_substream m ⟨sid, st⟩ fres chan fresh with
      | none => none
      | some (_, _, m1, es) => some (m1, es)
  | .destroySub sid st => some (destroy_substream m ⟨sid, st⟩)
  | .closeOp w =>
      match close m w with
      | none => none
      | some (_, m1, es) => some (m1, es)
  | .dropMuxer =>
      if m.close_reason.isNone then shutdown m RESET else some (m, [])
  | .flushOp => some (m, [])
  | .parkDriver w => some ({ m with waker := some w }, [])
  | .markDrained =>
      if m.connection.isClosed then
        some ({ m with connection := { m.connection with isDrained := true } }, [])
      else none

/-- Run a sequence of steps, discarding effects. -/
def runOps : Muxer → List Op → Option Muxer
  | m, [] => some m
  | m, op :: rest =>
      match runOp m op with
      | none => none
      | some (m1, _) => runOps m1 rest

/-- A Muxer state is reachable when some step sequence from Muxer::new
produces it without getting stuck. -/
def Reachable (m : Muxer) : Prop :=
  ∃ ops, runOps Muxer.new ops = some m

/-- Whether a quinn event is ConnectionLost. -/
def isCL : QEvent → Bool
  | .connectionLost _ => true
  | _ => false

/-- Number of ConnectionLost events in a queue. -/
def clCount (l : List QEvent) : Nat := (l.filter isCL).length

/-- Invariant tying close_reason to the quinn machine per its contract:
a latched reason implies the machine has closed, the machine emits
ConnectionLost at most once, and a queued ConnectionLost means the reason
is not yet latched and the machine has already transitioned to closed. -/
def InvCR (m : Muxer) : Prop :=
  (m.close_reason.isSome = true → m.connection.isClosed = true) ∧
  clCount m.connection.queue ≤ 1 ∧
  (∀ r, QEvent.connectionLost r ∈ m.connection.queue →
    m.close_reason = none ∧ m.connection.isClosed = true)

/-- Invariant of claim C4: a cached pending stream excludes queued
outbound-open requesters. -/
def InvPS (m : Muxer) : Prop :=
  ∀ id, m.pending_stream = some id → m.connectors = []

/-- Combined muxer invariant. -/
def MuxInv (m : Muxer) : Prop := InvCR m ∧ InvPS m

/-- A reachable state whose close reason was latched by a delivered
ConnectionLost event. -/
def stLost : Muxer :=
  (runOps Muxer.new [.inject (.connectionLost (.Other 3)), .procEvents]).getD Muxer.new

/-- A reachable state holding a cached pending stream: an outbound open
was requested, its future dropped, and a stream then became available. -/
def stPending : Muxer :=
  (runOps Muxer.new
    [.openOutbound 5, .dropOutbound 5, .inject .streamAvailableBi, .procEvents]).getD
    Muxer.new

/-- A muxer whose quinn machine has one unit of outbound stream credit. -/
def stCredit : Muxer :=
  { Muxer.new with connection := { Muxer.new.connection with openCredit := 1 } }

/-- A muxer with a parked close waker on an already-closed connection. -/
def stCloseWaker : Muxer :=
  { Muxer.new with close_waker := some 5,
                   connection := { Muxer.new.connection with isClosed := true } }

/-- A muxer with one outstanding finisher entry. -/
def stFinisher : Muxer :=
  { Muxer.new with finishers := [(0, none)] }

/-- The state after the first close call on stFinisher. -/
def stFinisherClosed : Muxer :=
  ((close stFinisher 1).map (fun p => p.2.1)).getD Muxer.new

/-- The state after a successful close of a fresh muxer. -/
def stClosed : Muxer :=
  ((close Muxer.new 1).map (fun p => p.2.1)).getD Muxer.new

/-- A muxer with one parked task of every kind: accept and handshake
wakers, a reader, a writer, an awaited finisher, a connector, and a close
waker. -/
def stWake : Muxer :=
  { Muxer.new with accept_waker := some 2, handshake_waker := some 6,
                   writers := [(0, 3)], readers := [(0, 4)],
                   finishers := [(1, some 9)], connectors := [(5, true)],
                   close_waker := some 7 }

/-- Resulting state of a successful shutdown call. -/
def shutSt (m : Muxer) (code : Nat) : Muxer :=
  ((shutdown m code).map Prod.fst).getD Muxer.new

/-- Effects of a successful shutdown call. -/
def shutEffs (m : Muxer) (code : Nat) : List Effect :=
  ((shutdown m code).map Prod.snd).getD []

/-- Resulting state of a successful step. -/
def stepSt (m : Muxer) (op : Op) : Muxer :=
  ((runOp m op).map Prod.fst).getD Muxer.new

/-- Effects of a successful step. -/
def stepEffs (m : Muxer) (op : Op) : List Effect :=
  ((runOp m op).map Prod.snd).getD []

/- ------------------------------------------------------------------ -/
/- Helper lemmas                                                      -/
/- ------------------------------------------------------------------ -/

theorem wake_driver_eq (m : Muxer) :
    wake_driver m = ({ m with waker := none }, optWake m.waker) := by
  cases m with
  | mk ps c wr rd fi hw aw co cr wk cw cl => cases wk <;> rfl

theorem mem_optWake (e : Effect) (o : Option Waker) :
    e ∈ optWake o ↔ ∃ w, o = some w ∧ e = .wake w := by
  cases o <;> simp [optWake]

theorem alookup_aerase {α : Type} (l : List (Nat × α)) (k : Nat) :
    alookup (aerase l k) k = none := by
  induction l with
  | nil => rfl
  | cons p rest ih =>
      rcases p with ⟨a, v⟩
      by_cases hak : a = k
      · simpa [aerase, hak] using (by simpa [aerase] using ih)
      · simp [aerase, alookup, hak] at ih ⊢
        exact ih

/- ------------------------------------------------------------------ -/
/- C10: flush operations are pure no-ops                              -/
/- ------------------------------------------------------------------ -/

/-- C10: for every substream and connection state, flush_substream and
flush_all return Ready(Ok(())) immediately, leave every field of the
muxer unchanged and produce no effects. -/
theorem flush_substream_flush_all_noop (m : Muxer) (s : QuicSubstream) (w w' : Waker) :
    flush_substream m s w = (.Ready (.ok ()), m, []) ∧
    flush_all m w' = (.Ready (.ok ()), m, []) :=
  ⟨rfl, rfl⟩

/- ------------------------------------------------------------------ -/
/- C9: read_substream maps exactly UnknownStream to ExpiredStream and  -/
/- never consults the local status field                               -/
/- ------------------------------------------------------------------ -/

/-- C9: read_substream returns Err(ExpiredStream) exactly when the quinn
read reports UnknownStream, and its entire behaviour is independent of the
local status field of the substream, so a Finishing or Finished substream
reads like a Live one. -/
theorem read_substream_expired_iff_unknown (m : Muxer) (sid : StreamId)
    (st st' : SubstreamStatus) (w : Waker) (res : ReadResult) :
    ((read_substream m ⟨sid, st⟩ w res).1 = .Ready (.err .ExpiredStream) ↔
      res = .unknownStream) ∧
    read_substream m ⟨sid, st⟩ w res = read_substream m ⟨sid, st'⟩ w res := by
  refine ⟨?_, rfl⟩
  cases res with
  | okSome n => simp [read_substream, wake_driver_eq]
  | okNone => simp [read_substream, wake_driver_eq]
  | unknownStream => simp [read_substream, wake_driver_eq]
  | reset c => simp [read_substream, wake_driver_eq]
  | blocked =>
      rcases h : m.close_reason with _ | e
      · simp [read_substream, wake_driver_eq, h]
      · rcases e with ⟨code, reason⟩ | _ | n
        · rcases code with _ | c
          · rcases reason with _ | ⟨b, bs⟩
            · simp [read_substream, wake_driver_eq, h]
            · simp [read_substream, wake_driver_eq, h]
          · simp [read_substream, wake_driver_eq, h]
        · simp [read_substream, wake_driver_eq, h]
        · simp [read_substream, wake_driver_eq, h]

/- ------------------------------------------------------------------ -/
/- C5: the three outcomes of a Blocked read                            -/
/- ------------------------------------------------------------------ -/

/-- C5: when the quinn read reports Blocked, the outcome is decided by
close_reason: with no close reason the caller waker is installed in
readers (waking any replaced occupant) and the call is Pending; with an
application close of code 0 and empty reason, any installed reader waker
is removed and woken and the call is a clean EOF Ready(Ok(0)); any other
latched reason yields Ready(Err(ConnectionError)).  The leading driver
wake is recorded in each case. -/
theorem read_substream_blocked_spec (m : Muxer) (s : QuicSubstream) (w : Waker) :
    (match m.close_reason with
     | none =>
         read_substream m s w .blocked =
           (.Pending,
            { m with waker := none, readers := ainsert m.readers s.id w },
            optWake m.waker ++ optWake (alookup m.readers s.id))
     | some (.ApplicationClosed 0 []) =>
         read_substream m s w .blocked =
           (.Ready (.ok 0),
            { m with waker := none, readers := aerase m.readers s.id },
            optWake m.waker ++ optWake (alookup m.readers s.id))
     | some e =>
         read_substream m s w .blocked =
           (.Ready (.err (.ConnectionError e)), { m with waker := none },
            optWake m.waker)) := by
  rcases h : m.close_reason with _ | e
  · simp [read_substream, wake_driver_eq, h]
  · rcases e with ⟨code, reason⟩ | _ | n
    · rcases code with _ | c
      · rcases reason with _ | ⟨b, bs⟩
        · simp [read_substream, wake_driver_eq, h]
        · simp [read_substream, wake_driver_eq, h]
      · simp [read_substream, wake_driver_eq, h]
    · simp [read_substream, wake_driver_eq, h]
    · simp [read_substream, wake_driver_eq, h]

/- ------------------------------------------------------------------ -/
/- C2: write_substream and expired streams                             -/
/- ------------------------------------------------------------------ -/

/-- C2 counterexample: the source only debug-asserts the finishers entry,
it does not return ExpiredStream on a missing one.  Here the substream is
Live, the finishers map has no entry for its id, yet the write proceeds
and returns Ready(Ok(5)). -/
theorem write_substream_no_finisher_not_expired :
    alookup Muxer.new.finishers 0 = none ∧
    (QuicSubstream.mk 0 .Live).is_live = true ∧
    (write_substream Muxer.new ⟨0, .Live⟩ 7 (.ok 5)).map (fun p => p.1) =
      some (.Ready (.ok 5)) := by
  refine ⟨rfl, rfl, ?_⟩
  decide

/-- C2 (amended): if the substream status is not Live, write_substream
returns Ready(Err(ExpiredStream)) immediately, without touching the muxer
state or producing effects; a missing finishers entry is only
debug-asserted and does not by itself cause ExpiredStream. -/
theorem write_substream_not_live_expired (m : Muxer) (s : QuicSubstream) (w : Waker)
    (res : WriteResult) (h : s.is_live = false) :
    write_substream m s w res = some (.Ready (.err .ExpiredStream), s, m, []) := by
  simp [write_substream, h]

/-- Witness for the amended C2 theorem at a Finished substream. -/
theorem write_substream_not_live_expired_witness :
    (QuicSubstream.mk 0 .Finished).is_live = false ∧
    write_substream Muxer.new ⟨0, .Finished⟩ 3 (.ok 1) =
      some (.Ready (.err .ExpiredStream), ⟨0, .Finished⟩, Muxer.new, []) :=
  ⟨rfl, write_substream_not_live_expired Muxer.new ⟨0, .Finished⟩ 3 (.ok 1) rfl⟩

/- ------------------------------------------------------------------ -/
/- C3: open_outbound                                                  -/
/- ------------------------------------------------------------------ -/

/-- C3 counterexample: with no close reason and an empty pending_stream
slot, but one unit of quinn open credit, open_outbound completes
immediately with the freshly opened stream instead of parking a connector
and returning Pending as the claim demands. -/
theorem open_outbound_fresh_open_not_pending :
    stCredit.close_reason = none ∧
    stCredit.pending_stream = none ∧
    (open_outbound stCredit 9).1 = .Complete (.ok 0) ∧
    (open_outbound stCredit 9).2.1.connectors = [] := by
  refine ⟨rfl, rfl, ?_, ?_⟩ <;> decide

/-- C3 (amended): open_outbound with a latched close reason completes
with ConnectionError; otherwise, if a cached pending stream exists it is
consumed, and failing that a fresh quinn open is attempted, in either
success case recording finishers[id] := None and completing with Ok(id);
only when both fail is a fresh oneshot sender pushed to the front of
connectors, the driver woken, and Pending(receiver) returned. -/
theorem open_outbound_spec (m : Muxer) (fresh : Nat) :
    (match m.close_reason, m.pending_stream with
     | some e, _ =>
         open_outbound m fresh = (.Complete (.err (.ConnectionError e)), m, [])
     | none, some id =>
         open_outbound m fresh =
           (.Complete (.ok id),
            { m with waker := none, pending_stream := none,
                     finishers := ainsert m.finishers id none },
            optWake m.waker)
     | none, none =>
         match m.connection.openBi with
         | some (id, c) =>
             open_outbound m fresh =
               (.Complete (.ok id),
                { m with waker := none, connection := c,
                         finishers := ainsert m.finishers id none },
                optWake m.waker)
         | none =>
             open_outbound m fresh =
               (.Pending fresh,
                { m with waker := none,
                         connectors := (fresh, true) :: m.connectors },
                optWake m.waker)) := by
  rcases hcr : m.close_reason with _ | e
  · rcases hps : m.pending_stream with _ | id
    · rcases hob : m.connection.openBi with _ | ⟨id, c⟩
      · simp [open_outbound, get_pending_stream, wake_driver_eq, hcr, hps, hob, optWake]
      · simp [open_outbound, get_pending_stream, wake_driver_eq, hcr, hps, hob]
    · simp [open_outbound, get_pending_stream, wake_driver_eq, hcr, hps]
  · simp [open_outbound, hcr]

/- ------------------------------------------------------------------ -/
/- C6: destroy_substream                                              -/
/- ------------------------------------------------------------------ -/

/-- C6 counterexample: destroy_substream issues stop_sending
unconditionally; here the substream is already Finished (so not Live),
yet the stop_sending call is still made, contradicting the claim that
finish plus stop_sending happen only on a Live stream of a non-closing
connection. -/
theorem destroy_substream_stop_sending_always :
    (QuicSubstream.mk 0 .Finished).is_live = false ∧
    Effect.connStopSending 0 0 ∈ (destroy_substream Muxer.new ⟨0, .Finished⟩).2 := by
  exact ⟨rfl, by decide⟩

/-- C6 (amended): destroy_substream wakes and removes any reader and
writer wakers of the substream id; it issues the best-effort finish
exactly when the substream is still Live and close_reason is unset; it
always issues stop_sending with code 0; and it is a total function, so it
never fails observably. -/
theorem destroy_substream_spec (m : Muxer) (s : QuicSubstream) :
    alookup (destroy_substream m s).1.writers s.id = none ∧
    alookup (destroy_substream m s).1.readers s.id = none ∧
    (match alookup m.writers s.id with
     | some w0 => Effect.wake w0 ∈ (destroy_substream m s).2
     | none => True) ∧
    (match alookup m.readers s.id with
     | some w0 => Effect.wake w0 ∈ (destroy_substream m s).2
     | none => True) ∧
    (Effect.connFinish s.id ∈ (destroy_substream m s).2 ↔
      (s.is_live = true ∧ m.close_reason = none)) ∧
    Effect.connStopSending s.id 0 ∈ (destroy_substream m s).2 := by
  refine ⟨?_, ?_, ?_, ?_, ?_, ?_⟩
  · simp [destroy_substream, alookup_aerase]
  · simp [destroy_substream, alookup_aerase]
  · rcases hw : alookup m.writers s.id with _ | w0
    · trivial
    · simp [destroy_substream, hw, optWake]
  · rcases hr : alookup m.readers s.id with _ | w0
    · trivial
    · simp [destroy_substream, hr, optWake, mem_optWake]
  · by_cases hl : s.is_live = true
    · rcases hcr : m.close_reason with _ | e
      · simp [destroy_substream, hl, hcr, mem_optWake]
      · simp [destroy_substream, hl, hcr, mem_optWake]
    · have hl' : s.is_live = false := by
        revert hl; cases s.is_live <;> simp
      simp [destroy_substream, hl', mem_optWake]
  · simp [destroy_substream]

/- ------------------------------------------------------------------ -/
/- Facts about the event handlers, used by the trace invariants        -/
/- ------------------------------------------------------------------ -/

theorem openBi_facts (c c' : Conn) (id : StreamId) (h : c.openBi = some (id, c')) :
    c'.queue = c.queue ∧ c'.isClosed = c.isClosed ∧ c'.isDrained = c.isDrained := by
  unfold Conn.openBi at h
  split at h
  · simp at h
  · simp at h
    rcases h with ⟨h1, h2⟩
    subst h2
    exact ⟨rfl, rfl, rfl⟩

theorem processEvent_facts (m : Muxer) (e : QEvent) (m' : Muxer) (es : List Effect)
    (h : processEvent m e = some (m', es)) :
    m'.connection.queue = m.connection.queue ∧
    m'.connection.isClosed = m.connection.isClosed ∧
    (m'.close_reason = m.close_reason ∨
      ∃ r, e = .connectionLost r ∧ m'.close_reason = some r ∧
        m.connection.isClosed = true) ∧
    (m.connectors = [] → m'.connectors = []) ∧
    (InvPS m → InvPS m') := by
  cases e with
  | streamReadable id =>
      rcases hl : alookup m.readers id with _ | w <;> simp [processEvent, hl] at h <;>
        rcases h with ⟨hm, hes⟩ <;> subst hm <;>
        exact ⟨rfl, rfl, Or.inl rfl, fun hc => hc, fun hps => hps⟩
  | streamWritable id =>
      rcases hl : alookup m.writers id with _ | w <;> simp [processEvent, hl] at h <;>
        rcases h with ⟨hm, hes⟩ <;> subst hm <;>
        exact ⟨rfl, rfl, Or.inl rfl, fun hc => hc, fun hps => hps⟩
  | streamOpenedBi =>
      rcases hl : m.accept_waker with _ | w <;> simp [processEvent, hl] at h <;>
        rcases h with ⟨hm, hes⟩ <;> subst hm <;>
        exact ⟨rfl, rfl, Or.inl rfl, fun hc => hc, fun hps => hps⟩
  | connected =>
      rcases hl : m.handshake_waker with _ | w <;> simp [processEvent, hl] at h <;>
        rcases h with ⟨hm, hes⟩ <;> subst hm <;>
        exact ⟨rfl, rfl, Or.inl rfl, fun hc => hc, fun hps => hps⟩
  | streamAvailableBi =>
      by_cases hce : m.connectors.isEmpty
      · simp [processEvent, hce] at h
        rcases h with ⟨hm, hes⟩
        subst hm
        exact ⟨rfl, rfl, Or.inl rfl, fun hc => hc, fun hps => hps⟩
      · by_cases hpss : m.pending_stream.isSome
        · simp [processEvent, hce, hpss] at h
        · have hpn : m.pending_stream = none := Option.not_isSome_iff_eq_none.mp hpss
          rcases hob : m.connection.openBi with _ | ⟨id, c⟩
          · simp [processEvent, hce, hpss, hob] at h
          · obtain ⟨hq, hic, _⟩ := openBi_facts m.connection c id hob
            rcases hds : deliverStream m.connectors id with ⟨rest, flag, esd⟩
            cases flag
            · simp [processEvent, hce, hpss, hob, hds] at h
              rcases h with ⟨hm, hes⟩
              subst hm
              refine ⟨hq, hic, Or.inl rfl, fun hc => rfl, fun _ => ?_⟩
              intro id' _
              rfl
            · simp [processEvent, hce, hpss, hob, hds] at h
              rcases h with ⟨hm, hes⟩
              subst hm
              refine ⟨hq, hic, Or.inl rfl, ?_, fun _ => ?_⟩
              · intro hc
                exact absurd (by simp [hc]) hce
              · intro id' h'
                simp [hpn] at h'
  | streamFinished id stop =>
      rcases hf : alookup m.finishers id with _ | sOpt
      · simp [processEvent, hf] at h
      · by_cases hfe : (aerase m.finishers id).isEmpty
        · simp [processEvent, hf, hfe] at h
          rcases h with ⟨hm, hes⟩
          subst hm
          exact ⟨rfl, rfl, Or.inl rfl, fun hc => hc, fun hps => hps⟩
        · simp [processEvent, hf, hfe] at h
          rcases h with ⟨hm, hes⟩
          subst hm
          exact ⟨rfl, rfl, Or.inl rfl, fun hc => hc, fun hps => hps⟩
  | connectionLost r =>
      by_cases hic : m.connection.isClosed = false
      · simp [processEvent, hic] at h
      · have hic' : m.connection.isClosed = true := by
          revert hic; cases m.connection.isClosed <;> simp
        simp [processEvent, hic', shutdownClosed, shutdownWake, wake_driver_eq] at h
        rcases h with ⟨hm, hes⟩
        subst hm
        refine ⟨rfl, rfl, Or.inr ⟨r, rfl, rfl, hic'⟩, fun _ => rfl, fun _ => ?_⟩
        intro id' _
        rfl

theorem drainEvents_facts (evs : List QEvent) : ∀ (m m' : Muxer) (es : List Effect),
    drainEvents m evs = some (m', es) →
    m'.connection.queue = m.connection.queue ∧
    m'.connection.isClosed = m.connection.isClosed ∧
    ((∀ r, QEvent.connectionLost r ∉ evs) → m'.close_reason = m.close_reason) ∧
    ((m.close_reason.isSome = true → m.connection.isClosed = true) →
      m'.close_reason.isSome = true → m'.connection.isClosed = true) ∧
    (m.connectors = [] → m'.connectors = []) ∧
    (InvPS m → InvPS m') := by
  induction evs with
  | nil =>
      intro m m' es h
      simp [drainEvents] at h
      rcases h with ⟨hm, hes⟩
      subst hm
      exact ⟨rfl, rfl, fun _ => rfl, fun h1 => h1, id, id⟩
  | cons e rest ih =>
      intro m m' es h
      rcases hpe : processEvent m e with _ | ⟨m1, es1⟩
      · simp [drainEvents, hpe] at h
      · rcases hdr : drainEvents m1 rest with _ | ⟨m2, es2⟩
        · simp [drainEvents, hpe, hdr] at h
        · simp [drainEvents, hpe, hdr] at h
          obtain ⟨pq, pc, pr, pcn, pps⟩ := processEvent_facts m e m1 es1 hpe
          obtain ⟨dq, dc, dr, dcl, dcn, dps⟩ := ih m1 m2 es2 hdr
          rcases h with ⟨hm, hes⟩
          subst hm
          refine ⟨dq.trans pq, dc.trans pc, ?_, ?_, fun hc => dcn (pcn hc), fun hps => dps (pps hps)⟩
          · intro hnoCL
            have h1 : m1.close_reason = m.close_reason := by
              rcases pr with h1 | ⟨r, her, _, _⟩
              · exact h1
              · have hmem : QEvent.connectionLost r ∈ e :: rest := by
                  rw [her]
                  exact List.mem_cons_self _ _
                exact (hnoCL r hmem).elim
            have h2 := dr (fun r hr => hnoCL r (List.mem_cons_of_mem e hr))
            exact h2.trans h1
          · intro hcrc
            refine dcl ?_
            intro hsome
            rcases pr with h1 | ⟨r, _, h2, h3⟩
            · rw [pc]
              exact hcrc (h1 ▸ hsome)
            · rw [pc]
              exact h3

theorem process_app_events_facts (m m' : Muxer) (es : List Effect)
    (h : process_app_events m = some (m', es)) :
    m'.connection.queue = [] ∧
    m'.connection.isClosed = m.connection.isClosed ∧
    ((∀ r, QEvent.connectionLost r ∉ m.connection.queue) →
      m'.close_reason = m.close_reason) ∧
    ((m.close_reason.isSome = true → m.connection.isClosed = true) →
      m'.close_reason.isSome = true → m'.connection.isClosed = true) ∧
    (m.connectors = [] → m'.connectors = []) ∧
    (InvPS m → InvPS m') := by
  unfold process_app_events at h
  obtain ⟨dq, dc, dr, dcl, dcn, dps⟩ :=
    drainEvents_facts m.connection.queue _ m' es h
  refine ⟨dq, dc, dr, ?_, dcn, ?_⟩
  · intro hcrc
    exact dcl hcrc
  · intro hps
    refine dps ?_
    intro id hp
    exact hps id hp

theorem shutdownWake_eq (m : Muxer) :
    shutdownWake m =
      ({ m with accept_waker := none, handshake_waker := none,
                writers := [], readers := [], finishers := [], connectors := [] },
       optWake m.accept_waker ++ optWake m.handshake_waker ++
         m.writers.map (fun p => Effect.wake p.2) ++
         m.readers.map (fun p => Effect.wake p.2) ++
         m.finishers.filterMap (fun p => p.2.map Effect.signal)) := by
  simp [shutdownWake]

theorem mem_shutdownWake_effs (m : Muxer) :
    (∀ w, m.accept_waker = some w → Effect.wake w ∈ (shutdownWake m).2) ∧
    (∀ w, m.handshake_waker = some w → Effect.wake w ∈ (shutdownWake m).2) ∧
    (∀ sid w, (sid, w) ∈ m.writers → Effect.wake w ∈ (shutdownWake m).2) ∧
    (∀ sid w, (sid, w) ∈ m.readers → Effect.wake w ∈ (shutdownWake m).2) ∧
    (∀ sid tok, (sid, some tok) ∈ m.finishers → Effect.signal tok ∈ (shutdownWake m).2) := by
  simp only [shutdownWake_eq]
  refine ⟨?_, ?_, ?_, ?_, ?_⟩
  · intro w hw
    simp [hw, optWake]
  · intro w hw
    simp [hw, optWake]
  · intro sid w hmem
    exact List.mem_append_left _ (List.mem_append_left _
      (List.mem_append_right _ (List.mem_map_of_mem _ hmem)))
  · intro sid w hmem
    exact List.mem_append_left _ (List.mem_append_right _ (List.mem_map_of_mem _ hmem))
  · intro sid tok hmem
    exact List.mem_append_right _ (List.mem_filterMap.mpr ⟨(sid, some tok), hmem, rfl⟩)

theorem shutdown_facts (m : Muxer) (code : Nat) (m' : Muxer) (es : List Effect)
    (h : shutdown m code = some (m', es)) :
    (∀ w, m.accept_waker = some w → Effect.wake w ∈ es) ∧
    (∀ w, m.handshake_waker = some w → Effect.wake w ∈ es) ∧
    (∀ sid w, (sid, w) ∈ m.writers → Effect.wake w ∈ es) ∧
    (∀ sid w, (sid, w) ∈ m.readers → Effect.wake w ∈ es) ∧
    (∀ sid tok, (sid, some tok) ∈ m.finishers → Effect.signal tok ∈ es) ∧
    m'.connectors = [] ∧
    m'.connection.isClosed = true ∧
    (m.connection.isClosed = false →
      Effect.connClose code ∈ es ∧ m'.connection.queue = [] ∧
      ((∀ r, QEvent.connectionLost r ∉ m.connection.queue) →
        m'.close_reason = m.close_reason)) ∧
    (m.connection.isClosed = true →
      m' = { m with accept_waker := none, handshake_waker := none,
                    writers := [], readers := [], finishers := [],
                    connectors := [], waker := none }) := by
  obtain ⟨w1, w2, w3, w4, w5⟩ := mem_shutdownWake_effs m
  simp only [shutdownWake_eq] at w1 w2 w3 w4 w5
  unfold shutdown at h
  rw [shutdownWake_eq] at h
  simp only [wake_driver_eq] at h
  split at h
  · next hic =>
      simp only [Option.some.injEq, Prod.mk.injEq] at h
      rcases h with ⟨hm, hes⟩
      subst hm
      subst hes
      refine ⟨fun w hw => List.mem_append_left _ (w1 w hw),
              fun w hw => List.mem_append_left _ (w2 w hw),
              fun sid w hw => List.mem_append_left _ (w3 sid w hw),
              fun sid w hw => List.mem_append_left _ (w4 sid w hw),
              fun sid tok hw => List.mem_append_left _ (w5 sid tok hw),
              rfl, hic, ?_, fun _ => rfl⟩
      intro hf
      rw [hic] at hf
      cases hf
  · next hic =>
      split at h
      · cases h
      · next m3 e3 heq =>
          simp only [Option.some.injEq, Prod.mk.injEq] at h
          rcases h with ⟨hm, hes⟩
          subst hm
          subst hes
          obtain ⟨pq, pc, pr, _, pcn, _⟩ := process_app_events_facts _ m3 e3 heq
          have hic' : m.connection.isClosed = false := by
            revert hic
            cases m.connection.isClosed <;> simp
          refine ⟨fun w hw => List.mem_append_left _ (List.mem_append_left _
                    (List.mem_append_left _ (w1 w hw))),
                  fun w hw => List.mem_append_left _ (List.mem_append_left _
                    (List.mem_append_left _ (w2 w hw))),
                  fun sid w hw => List.mem_append_left _ (List.mem_append_left _
                    (List.mem_append_left _ (w3 sid w hw))),
                  fun sid w hw => List.mem_append_left _ (List.mem_append_left _
                    (List.mem_append_left _ (w4 sid w hw))),
                  fun sid tok hw => List.mem_append_left _ (List.mem_append_left _
                    (List.mem_append_left _ (w5 sid tok hw))),
                  ?_, ?_, ?_, ?_⟩
          · simpa using pcn rfl
          · simpa using pc
          · intro _
            refine ⟨?_, by simpa using pq, ?_⟩
            · refine List.mem_append_left _ (List.mem_append_left _
                (List.mem_append_right _ ?_))
              simp
            · intro hno
              simpa using pr (by simpa using hno)
          · intro hf
            rw [hic'] at hf
            cases hf

/- ------------------------------------------------------------------ -/
/- C7: internal shutdown                                               -/
/- ------------------------------------------------------------------ -/

/-- C7 counterexample: shutdown never touches the close waker.  On an
already-closed connection with a parked close waker, a successful
shutdown leaves the close waker installed and emits no wake for it,
contradicting the claim that shutdown wakes the close waker. -/
theorem shutdown_ignores_close_waker :
    (shutdown stCloseWaker 0).isSome = true ∧
    stCloseWaker.close_waker = some 5 ∧
    (shutSt stCloseWaker 0).close_waker = some 5 ∧
    Effect.wake 5 ∉ shutEffs stCloseWaker 0 := by
  refine ⟨rfl, rfl, rfl, ?_⟩
  decide

/-- C7 (amended): every successful shutdown(code) wakes the accept waker,
the handshake waker, all reader wakers, all writer wakers, and signals
all finishers' completion senders; it truncates connectors; and when the
QUIC state machine is not yet closed it calls close with the given code
and drains the QUIC events once more before returning.  (The close waker
is not woken by shutdown itself.) -/
theorem shutdown_wakes_all (m : Muxer) (code : Nat) (m' : Muxer) (es : List Effect)
    (h : shutdown m code = some (m', es)) :
    (∀ w, m.accept_waker = some w → Effect.wake w ∈ es) ∧
    (∀ w, m.handshake_waker = some w → Effect.wake w ∈ es) ∧
    (∀ sid w, (sid, w) ∈ m.writers → Effect.wake w ∈ es) ∧
    (∀ sid w, (sid, w) ∈ m.readers → Effect.wake w ∈ es) ∧
    (∀ sid tok, (sid, some tok) ∈ m.finishers → Effect.signal tok ∈ es) ∧
    m'.connectors = [] ∧
    (m.connection.isClosed = false →
      Effect.connClose code ∈ es ∧ m'.connection.queue = []) := by
  obtain ⟨a1, a2, a3, a4, a5, a6, _, a8, _⟩ := shutdown_facts m code m' es h
  exact ⟨a1, a2, a3, a4, a5, a6, fun hf => ⟨(a8 hf).1, (a8 hf).2.1⟩⟩

/-- Witness for the amended C7 theorem on a muxer with one parked task of
every kind and a not-yet-closed connection. -/
theorem shutdown_wakes_all_witness :
    Effect.wake 2 ∈ shutEffs stWake 0 ∧
    Effect.wake 6 ∈ shutEffs stWake 0 ∧
    Effect.wake 3 ∈ shutEffs stWake 0 ∧
    Effect.wake 4 ∈ shutEffs stWake 0 ∧
    Effect.signal 9 ∈ shutEffs stWake 0 ∧
    (shutSt stWake 0).connectors = [] ∧
    Effect.connClose 0 ∈ shutEffs stWake 0 := by
  obtain ⟨a1, a2, a3, a4, a5, a6, a7⟩ :=
    shutdown_wakes_all stWake 0 (shutSt stWake 0) (shutEffs stWake 0) (by decide)
  exact ⟨a1 2 rfl, a2 6 rfl, a3 0 3 (by decide), a4 0 4 (by decide),
         a5 1 9 (by decide), a6, (a7 rfl).1⟩

/- ------------------------------------------------------------------ -/
/- C8: repeated close calls                                            -/
/- ------------------------------------------------------------------ -/

/-- C8 counterexample: on a muxer with an outstanding finisher, a first
close call returns Pending, and a second close call on the resulting
state returns Pending again, contradicting the claim that the second of
two close calls always returns Ready. -/
theorem close_twice_both_pending :
    (close stFinisher 1).map (fun p => p.1) = some .Pending ∧
    (close stFinisherClosed 2).map (fun p => p.1) = some .Pending := by
  exact ⟨by decide, by decide⟩

/-- C8 (amended): close is Ready-stable: once a close call has returned
Ready, any subsequent close call on the resulting muxer returns Ready. -/
theorem close_ready_then_ready (m : Muxer) (w w' : Waker) (r : Res Unit)
    (m' : Muxer) (es : List Effect) (h : close m w = some (.Ready r, m', es)) :
    ∃ p, close m' w' = some p ∧ p.1.isReady = true := by
  unfold close at h
  split at h
  · next hic =>
      simp only [Option.some.injEq, Prod.mk.injEq] at h
      rcases h with ⟨_, hm, _⟩
      subst hm
      exact ⟨(.Ready (.ok ()), m, []), by simp [close, hic], rfl⟩
  · next hic =>
      split at h
      · next hcr =>
          simp only [Option.some.injEq, Prod.mk.injEq] at h
          rcases h with ⟨_, hm, _⟩
          subst hm
          exact ⟨(.Ready (.ok ()), m, []), by simp [close, hic, hcr], rfl⟩
      · next hcr =>
          split at h
          · split at h
            · cases h
            · next m1 e1 heq =>
                simp only [Option.some.injEq, Prod.mk.injEq] at h
                rcases h with ⟨_, hm, _⟩
                obtain ⟨_, _, _, _, _, _, hicl, _, _⟩ := shutdown_facts m 0 m1 e1 heq
                have hic' : m'.connection.isClosed = true := by
                  rw [← hm]
                  exact hicl
                exact ⟨(.Ready (.ok ()), m', []), by simp [close, hic'], rfl⟩
          · split at h
            · simp at h
            · simp at h

/-- Witness for the amended C8 theorem: a close of a fresh muxer returns
Ready, and the follow-up close on the resulting state returns Ready too. -/
theorem close_ready_then_ready_witness :
    close Muxer.new 1 = some (.Ready (.ok ()), stClosed, [.connClose 0, .driverPoll]) ∧
    ∃ p, close stClosed 2 = some p ∧ p.1.isReady = true :=
  ⟨by decide, close_ready_then_ready Muxer.new 1 2 (.ok ()) stClosed
    [.connClose 0, .driverPoll] (by decide)⟩

/- ------------------------------------------------------------------ -/
/- Invariant machinery for the trace claims C1 and C4                  -/
/- ------------------------------------------------------------------ -/

theorem InvCR_congr (m m' : Muxer) (hq : m'.connection.queue = m.connection.queue)
    (hc : m'.connection.isClosed = m.connection.isClosed)
    (hr : m'.close_reason = m.close_reason) (h : InvCR m) : InvCR m' := by
  rcases h with ⟨h1, h2, h3⟩
  refine ⟨?_, ?_, ?_⟩
  · rw [hr, hc]
    exact h1
  · rw [hq]
    exact h2
  · rw [hq, hr, hc]
    exact h3

theorem InvPS_congr (m m' : Muxer) (hp : m'.pending_stream = m.pending_stream)
    (hn : m'.connectors = m.connectors) (h : InvPS m) : InvPS m' := by
  intro id hid
  rw [hn]
  exact h id (hp ▸ hid)

theorem MuxInv_congr (m m' : Muxer) (hq : m'.connection.queue = m.connection.queue)
    (hc : m'.connection.isClosed = m.connection.isClosed)
    (hr : m'.close_reason = m.close_reason)
    (hp : m'.pending_stream = m.pending_stream)
    (hn : m'.connectors = m.connectors) (h : MuxInv m) : MuxInv m' :=
  ⟨InvCR_congr m m' hq hc hr h.1, InvPS_congr m m' hp hn h.2⟩

theorem clCount_append (a b : List QEvent) : clCount (a ++ b) = clCount a + clCount b := by
  simp [clCount, List.filter_append]

theorem clCount_zero_of_noCL (l : List QEvent)
    (h : ∀ r, QEvent.connectionLost r ∉ l) : clCount l = 0 := by
  unfold clCount
  rw [List.length_eq_zero, List.filter_eq_nil_iff]
  intro a ha
  cases a with
  | streamReadable id => simp [isCL]
  | streamWritable id => simp [isCL]
  | streamAvailableBi => simp [isCL]
  | streamOpenedBi => simp [isCL]
  | streamFinished id st => simp [isCL]
  | connected => simp [isCL]
  | connectionLost r => exact absurd ha (h r)

theorem noCL_of_invCR_open (m : Muxer) (h : InvCR m)
    (hic : m.connection.isClosed = false) :
    ∀ r, QEvent.connectionLost r ∉ m.connection.queue := by
  intro r hr
  have := (h.2.2 r hr).2
  rw [hic] at this
  cases this

theorem close_reason_none_of_invCR_open (m : Muxer) (h : InvCR m)
    (hic : m.connection.isClosed = false) : m.close_reason = none := by
  rcases hcr : m.close_reason with _ | r
  · rfl
  · have := h.1 (by rw [hcr]; rfl)
    rw [hic] at this
    cases this

theorem poll_inbound_fields (m : Muxer) (w : Waker) (acc : Option StreamId)
    (q : Poll (Res QuicSubstream)) (m1 : Muxer) (es : List Effect)
    (h : poll_inbound m w acc = some (q, m1, es)) :
    m1.connection = m.connection ∧ m1.close_reason = m.close_reason ∧
    m1.pending_stream = m.pending_stream ∧ m1.connectors = m.connectors := by
  unfold poll_inbound at h
  simp only [wake_driver_eq] at h
  split at h
  · split at h
    · simp only [Option.some.injEq, Prod.mk.injEq] at h
      rcases h with ⟨_, hm, _⟩
      subst hm
      exact ⟨rfl, rfl, rfl, rfl⟩
    · cases h
  · split at h
    · simp only [Option.some.injEq, Prod.mk.injEq] at h
      rcases h with ⟨_, hm, _⟩
      subst hm
      exact ⟨rfl, rfl, rfl, rfl⟩
    · simp only [Option.some.injEq, Prod.mk.injEq] at h
      rcases h with ⟨_, hm, _⟩
      subst hm
      exact ⟨rfl, rfl, rfl, rfl⟩

theorem write_substream_fields (m : Muxer) (s : QuicSubstream) (w : Waker)
    (res : WriteResult) (q : Poll (Res Nat)) (s1 : QuicSubstream) (m1 : Muxer)
    (es : List Effect) (h : write_substream m s w res = some (q, s1, m1, es)) :
    m1.connection = m.connection ∧ m1.close_reason = m.close_reason ∧
    m1.pending_stream = m.pending_stream ∧ m1.connectors = m.connectors := by
  unfold write_substream at h
  simp only [wake_driver_eq] at h
  split at h
  · simp only [Option.some.injEq, Prod.mk.injEq] at h
    rcases h with ⟨_, _, hm, _⟩
    subst hm
    exact ⟨rfl, rfl, rfl, rfl⟩
  · split at h
    · simp only [Option.some.injEq, Prod.mk.injEq] at h
      rcases h with ⟨_, _, hm, _⟩
      subst hm
      exact ⟨rfl, rfl, rfl, rfl⟩
    · split at h
      · cases h
      · split at h <;>
          (simp only [Option.some.injEq, Prod.mk.injEq] at h
           rcases h with ⟨_, _, hm, _⟩
           subst hm
           exact ⟨rfl, rfl, rfl, rfl⟩)

theorem read_substream_fields (m : Muxer) (s : QuicSubstream) (w : Waker)
    (res : ReadResult) (q : Poll (Res Nat)) (m1 : Muxer) (es : List Effect)
    (h : read_substream m s w res = (q, m1, es)) :
    m1.connection = m.connection ∧ m1.close_reason = m.close_reason ∧
    m1.pending_stream = m.pending_stream ∧ m1.connectors = m.connectors := by
  unfold read_substream at h
  simp only [wake_driver_eq] at h
  split at h <;>
    first
      | (simp only [Prod.mk.injEq] at h
         rcases h with ⟨_, hm, _⟩
         subst hm
         exact ⟨rfl, rfl, rfl, rfl⟩)
      | (split at h <;>
          (simp only [Prod.mk.injEq] at h
           rcases h with ⟨_, hm, _⟩
           subst hm
           exact ⟨rfl, rfl, rfl, rfl⟩))

theorem shutdown_substream_fields (m : Muxer) (s : QuicSubstream)
    (fres : FinishResult) (chan : ChanPoll) (fresh : Nat) (q : Poll (Res Unit))
    (s1 : QuicSubstream) (m1 : Muxer) (es : List Effect)
    (h : shutdown_substream m s fres chan fresh = some (q, s1, m1, es)) :
    m1.connection = m.connection ∧ m1.close_reason = m.close_reason ∧
    m1.pending_stream = m.pending_stream ∧ m1.connectors = m.connectors := by
  unfold shutdown_substream at h
  simp only [wake_driver_eq] at h
  split at h
  · simp only [Option.some.injEq, Prod.mk.injEq] at h
    rcases h with ⟨_, _, hm, _⟩
    subst hm
    exact ⟨rfl, rfl, rfl, rfl⟩
  · split at h <;>
      (simp only [Option.some.injEq, Prod.mk.injEq] at h
       rcases h with ⟨_, _, hm, _⟩
       subst hm
       exact ⟨rfl, rfl, rfl, rfl⟩)
  · split at h
    · cases h
    · simp only [Option.some.injEq, Prod.mk.injEq] at h
      rcases h with ⟨_, _, hm, _⟩
      subst hm
      exact ⟨rfl, rfl, rfl, rfl⟩
    · split at h
      · simp only [Option.some.injEq, Prod.mk.injEq] at h
        rcases h with ⟨_, _, hm, _⟩
        subst hm
        exact ⟨rfl, rfl, rfl, rfl⟩
      · cases h

theorem open_outbound_fields (m : Muxer) (fresh : Nat) :
    (open_outbound m fresh).2.1.connection.queue = m.connection.queue ∧
    (open_outbound m fresh).2.1.connection.isClosed = m.connection.isClosed ∧
    (open_outbound m fresh).2.1.close_reason = m.close_reason ∧
    (InvPS m → InvPS (open_outbound m fresh).2.1) := by
  rcases hcr : m.close_reason with _ | e
  · rcases hps : m.pending_stream with _ | id
    · rcases hob : m.connection.openBi with _ | ⟨id, c⟩
      · have hm' : (open_outbound m fresh).2.1.pending_stream = none := by
          simp [open_outbound, get_pending_stream, wake_driver_eq, hcr, hps, hob]
        refine ⟨?_, ?_, ?_, fun _ id' hid' => ?_⟩
        · simp [open_outbound, get_pending_stream, wake_driver_eq, hcr, hps, hob]
        · simp [open_outbound, get_pending_stream, wake_driver_eq, hcr, hps, hob]
        · simp [open_outbound, get_pending_stream, wake_driver_eq, hcr, hps, hob]
        · rw [hm'] at hid'
          cases hid'
      · obtain ⟨hq, hic, _⟩ := openBi_facts m.connection c id hob
        have hm' : (open_outbound m fresh).2.1.pending_stream = none := by
          simp [open_outbound, get_pending_stream, wake_driver_eq, hcr, hps, hob]
        refine ⟨?_, ?_, ?_, fun _ id' hid' => ?_⟩
        · simp [open_outbound, get_pending_stream, wake_driver_eq, hcr, hps, hob, hq]
        · simp [open_outbound, get_pending_stream, wake_driver_eq, hcr, hps, hob, hic]
        · simp [open_outbound, get_pending_stream, wake_driver_eq, hcr, hps, hob]
        · rw [hm'] at hid'
          cases hid'
    · have hm' : (open_outbound m fresh).2.1.pending_stream = none := by
        simp [open_outbound, get_pending_stream, wake_driver_eq, hcr, hps]
      refine ⟨?_, ?_, ?_, fun _ id' hid' => ?_⟩
      · simp [open_outbound, get_pending_stream, wake_driver_eq, hcr, hps]
      · simp [open_outbound, get_pending_stream, wake_driver_eq, hcr, hps]
      · simp [open_outbound, get_pending_stream, wake_driver_eq, hcr, hps]
      · rw [hm'] at hid'
        cases hid'
  · refine ⟨?_, ?_, ?_, fun hps' => ?_⟩
    · simp [open_outbound, hcr]
    · simp [open_outbound, hcr]
    · simp [open_outbound, hcr]
    · simpa [open_outbound, hcr] using hps'

theorem step_facts (m : Muxer) (op : Op) (m' : Muxer) (es : List Effect)
    (hI : MuxInv m) (h : runOp m op = some (m', es)) :
    MuxInv m' ∧ (∀ r, m.close_reason = some r → m'.close_reason = some r) := by
  obtain ⟨hCR, hPS⟩ := hI
  cases op with
  | inject e =>
      cases e with
      | connectionLost r =>
          simp only [runOp] at h
          split at h
          · cases h
          · next hic =>
              have hic' : m.connection.isClosed = false := by
                revert hic
                cases m.connection.isClosed <;> simp
              simp only [Option.some.injEq, Prod.mk.injEq] at h
              rcases h with ⟨hm, _⟩
              subst hm
              have hnone : m.close_reason = none :=
                close_reason_none_of_invCR_open m hCR hic'
              have hnoCL := noCL_of_invCR_open m hCR hic'
              refine ⟨⟨⟨?_, ?_, ?_⟩, fun id hid => hPS id hid⟩, ?_⟩
              · intro hs
                rfl
              · show clCount (m.connection.queue ++ [QEvent.connectionLost r]) ≤ 1
                rw [clCount_append, clCount_zero_of_noCL _ hnoCL]
                simp [clCount, isCL]
              · intro r' _
                exact ⟨hnone, rfl⟩
              · intro r0 hr0
                rw [hnone] at hr0
                cases hr0
      | streamAvailableBi =>
          simp only [runOp] at h
          simp only [Option.some.injEq, Prod.mk.injEq] at h
          rcases h with ⟨hm, _⟩
          subst hm
          refine ⟨⟨⟨hCR.1, ?_, ?_⟩, fun id hid => hPS id hid⟩, fun r0 hr0 => hr0⟩
          · show clCount (m.connection.queue ++ [QEvent.streamAvailableBi]) ≤ 1
            rw [clCount_append]
            simpa [clCount, isCL] using hCR.2.1
          · intro r' hmem
            show m.close_reason = none ∧ m.connection.isClosed = true
            simp only [List.mem_append] at hmem
            rcases hmem with hmem | hmem
            · exact hCR.2.2 r' hmem
            · simp at hmem
      | streamReadable id =>
          simp only [runOp] at h
          simp only [Option.some.injEq, Prod.mk.injEq] at h
          rcases h with ⟨hm, _⟩
          subst hm
          refine ⟨⟨⟨hCR.1, ?_, ?_⟩, fun i hid => hPS i hid⟩, fun r0 hr0 => hr0⟩
          · show clCount (m.connection.queue ++ [QEvent.streamReadable id]) ≤ 1
            rw [clCount_append]
            simpa [clCount, isCL] using hCR.2.1
          · intro r' hmem
            show m.close_reason = none ∧ m.connection.isClosed = true
            simp only [List.mem_append] at hmem
            rcases hmem with hmem | hmem
            · exact hCR.2.2 r' hmem
            · simp at hmem
      | streamWritable id =>
          simp only [runOp] at h
          simp only [Option.some.injEq, Prod.mk.injEq] at h
          rcases h with ⟨hm, _⟩
          subst hm
          refine ⟨⟨⟨hCR.1, ?_, ?_⟩, fun i hid => hPS i hid⟩, fun r0 hr0 => hr0⟩
          · show clCount (m.connection.queue ++ [QEvent.streamWritable id]) ≤ 1
            rw [clCount_append]
            simpa [clCount, isCL] using hCR.2.1
          · intro r' hmem
            show m.close_reason = none ∧ m.connection.isClosed = true
            simp only [List.mem_append] at hmem
            rcases hmem with hmem | hmem
            · exact hCR.2.2 r' hmem
            · simp at hmem
      | streamOpenedBi =>
          simp only [runOp] at h
          simp only [Option.some.injEq, Prod.mk.injEq] at h
          rcases h with ⟨hm, _⟩
          subst hm
          refine ⟨⟨⟨hCR.1, ?_, ?_⟩, fun i hid => hPS i hid⟩, fun r0 hr0 => hr0⟩
          · show clCount (m.connection.queue ++ [QEvent.streamOpenedBi]) ≤ 1
            rw [clCount_append]
            simpa [clCount, isCL] using hCR.2.1
          · intro r' hmem
            show m.close_reason = none ∧ m.connection.isClosed = true
            simp only [List.mem_append] at hmem
            rcases hmem with hmem | hmem
            · exact hCR.2.2 r' hmem
            · simp at hmem
      | streamFinished id st =>
          simp only [runOp] at h
          simp only [Option.some.injEq, Prod.mk.injEq] at h
          rcases h with ⟨hm, _⟩
          subst hm
          refine ⟨⟨⟨hCR.1, ?_, ?_⟩, fun i hid => hPS i hid⟩, fun r0 hr0 => hr0⟩
          · show clCount (m.connection.queue ++ [QEvent.streamFinished id st]) ≤ 1
            rw [clCount_append]
            simpa [clCount, isCL] using hCR.2.1
          · intro r' hmem
            show m.close_reason = none ∧ m.connection.isClosed = true
            simp only [List.mem_append] at hmem
            rcases hmem with hmem | hmem
            · exact hCR.2.2 r' hmem
            · simp at hmem
      | connected =>
          simp only [runOp] at h
          simp only [Option.some.injEq, Prod.mk.injEq] at h
          rcases h with ⟨hm, _⟩
          subst hm
          refine ⟨⟨⟨hCR.1, ?_, ?_⟩, fun i hid => hPS i hid⟩, fun r0 hr0 => hr0⟩
          · show clCount (m.connection.queue ++ [QEvent.connected]) ≤ 1
            rw [clCount_append]
            simpa [clCount, isCL] using hCR.2.1
          · intro r' hmem
            show m.close_reason = none ∧ m.connection.isClosed = true
            simp only [List.mem_append] at hmem
            rcases hmem with hmem | hmem
            · exact hCR.2.2 r' hmem
            · simp at hmem
  | procEvents =>
      have h' : process_app_events m = some (m', es) := h
      obtain ⟨pq, pc, pr, pcl, pcn, pps⟩ := process_app_events_facts m m' es h'
      refine ⟨⟨⟨pcl hCR.1, ?_, ?_⟩, pps hPS⟩, ?_⟩
      · rw [pq]
        simp [clCount]
      · intro r' hmem
        rw [pq] at hmem
        cases hmem
      · intro r0 hr0
        have hno : ∀ r', QEvent.connectionLost r' ∉ m.connection.queue := by
          intro r' hr'
          have := (hCR.2.2 r' hr').1
          rw [hr0] at this
          cases this
        exact (pr hno).trans hr0
  | openOutbound fresh =>
      obtain ⟨oq, oc, ocr, ops⟩ := open_outbound_fields m fresh
      have hm : m' = (open_outbound m fresh).2.1 := by
        simp only [runOp] at h
        rcases hoo : open_outbound m fresh with ⟨q, m1, es1⟩
        rw [hoo] at h
        simp only [Option.some.injEq, Prod.mk.injEq] at h
        exact h.1.symm
      subst hm
      refine ⟨⟨InvCR_congr m _ oq oc ocr hCR, ops hPS⟩, ?_⟩
      intro r0 hr0
      rw [ocr]
      exact hr0
  | dropOutbound tok =>
      simp only [runOp] at h
      simp only [Option.some.injEq, Prod.mk.injEq] at h
      rcases h with ⟨hm, _⟩
      subst hm
      refine ⟨⟨InvCR_congr m _ rfl rfl rfl hCR, ?_⟩, fun r0 hr0 => hr0⟩
      intro id hid
      show List.map _ m.connectors = []
      rw [hPS id hid]
      rfl
  | pollInbound w acc =>
      simp only [runOp] at h
      rcases hpi : poll_inbound m w acc with _ | ⟨q, m1, es1⟩
      · rw [hpi] at h
        cases h
      · rw [hpi] at h
        simp only [Option.some.injEq, Prod.mk.injEq] at h
        rcases h with ⟨hm, _⟩
        subst hm
        obtain ⟨f1, f2, f3, f4⟩ := poll_inbound_fields m w acc q m1 es1 hpi
        refine ⟨⟨InvCR_congr m _ (by rw [f1]) (by rw [f1]) f2 hCR,
                InvPS_congr m _ f3 f4 hPS⟩, ?_⟩
        intro r0 hr0
        rw [f2]
        exact hr0
  | writeSub sid st w res =>
      simp only [runOp] at h
      rcases hwr : write_substream m ⟨sid, st⟩ w res with _ | ⟨q, s1, m1, es1⟩
      · rw [hwr] at h
        cases h
      · rw [hwr] at h
        simp only [Option.some.injEq, Prod.mk.injEq] at h
        rcases h with ⟨hm, _⟩
        subst hm
        obtain ⟨f1, f2, f3, f4⟩ := write_substream_fields m ⟨sid, st⟩ w res q s1 m1 es1 hwr
        refine ⟨⟨InvCR_congr m _ (by rw [f1]) (by rw [f1]) f2 hCR,
                InvPS_congr m _ f3 f4 hPS⟩, ?_⟩
        intro r0 hr0
        rw [f2]
        exact hr0
  | readSub sid st w res =>
      simp only [runOp] at h
      rcases hre : read_substream m ⟨sid, st⟩ w res with ⟨q, m1, es1⟩
      rw [hre] at h
      simp only [Option.some.injEq, Prod.mk.injEq] at h
      rcases h with ⟨hm, _⟩
      subst hm
      obtain ⟨f1, f2, f3, f4⟩ := read_substream_fields m ⟨sid, st⟩ w res q m1 es1 hre
      refine ⟨⟨InvCR_congr m _ (by rw [f1]) (by rw [f1]) f2 hCR,
              InvPS_congr m _ f3 f4 hPS⟩, ?_⟩
      intro r0 hr0
      rw [f2]
      exact hr0
  | shutdownSub sid st fres chan fresh =>
      simp only [runOp] at h
      rcases hsh : shutdown_substream m ⟨sid, st⟩ fres chan fresh with _ | ⟨q, s1, m1, es1⟩
      · rw [hsh] at h
        cases h
      · rw [hsh] at h
        simp only [Option.some.injEq, Prod.mk.injEq] at h
        rcases h with ⟨hm, _⟩
        subst hm
        obtain ⟨f1, f2, f3, f4⟩ :=
          shutdown_substream_fields m ⟨sid, st⟩ fres chan fresh q s1 m1 es1 hsh
        refine ⟨⟨InvCR_congr m _ (by rw [f1]) (by rw [f1]) f2 hCR,
                InvPS_congr m _ f3 f4 hPS⟩, ?_⟩
        intro r0 hr0
        rw [f2]
        exact hr0
  | destroySub sid st =>
      simp only [runOp] at h
      simp only [Option.some.injEq] at h
      have hm : m' = { m with writers := aerase m.writers sid,
                              readers := aerase m.readers sid } :=
        (congrArg Prod.fst h).symm
      subst hm
      exact ⟨⟨InvCR_congr m _ rfl rfl rfl hCR,
              InvPS_congr m _ rfl rfl hPS⟩, fun r0 hr0 => hr0⟩
  | closeOp w =>
      simp only [runOp] at h
      rcases hcl : close m w with _ | ⟨q, m1, es1⟩
      · rw [hcl] at h
        cases h
      · rw [hcl] at h
        simp only [Option.some.injEq, Prod.mk.injEq] at h
        rcases h with ⟨hm, _⟩
        subst hm
        unfold close at hcl
        split at hcl
        · next hic =>
            simp only [Option.some.injEq, Prod.mk.injEq] at hcl
            rcases hcl with ⟨_, hm1, _⟩
            subst hm1
            exact ⟨⟨hCR, hPS⟩, fun r0 hr0 => hr0⟩
        · next hic =>
            split at hcl
            · next hcr2 =>
                simp only [Option.some.injEq, Prod.mk.injEq] at hcl
                rcases hcl with ⟨_, hm1, _⟩
                subst hm1
                exact ⟨⟨hCR, hPS⟩, fun r0 hr0 => hr0⟩
            · next hcr2 =>
                have hnone : m.close_reason = none := by
                  rcases hx : m.close_reason with _ | r0
                  · rfl
                  · rw [hx] at hcr2
                    simp at hcr2
                split at hcl
                · split at hcl
                  · cases hcl
                  · next m2 e2 heq =>
                      simp only [Option.some.injEq, Prod.mk.injEq] at hcl
                      rcases hcl with ⟨_, hm1, _⟩
                      have hic' : m.connection.isClosed = false := by
                        revert hic
                        cases m.connection.isClosed <;> simp
                      obtain ⟨_, _, _, _, _, s6, s7, s8, _⟩ :=
                        shutdown_facts m 0 m2 e2 heq
                      obtain ⟨_, s8q, _⟩ := s8 hic'
                      subst hm1
                      refine ⟨⟨⟨fun _ => ?_, ?_, ?_⟩, ?_⟩, ?_⟩
                      · show m2.connection.isClosed = true
                        exact s7
                      · show clCount m2.connection.queue ≤ 1
                        rw [s8q]
                        simp [clCount]
                      · intro r' hmem
                        have hmem' : QEvent.connectionLost r' ∈ m2.connection.queue := hmem
                        rw [s8q] at hmem'
                        cases hmem'
                      · intro id hid
                        show m2.connectors = []
                        exact s6
                      · intro r0 hr0
                        rw [hnone] at hr0
                        cases hr0
                · split at hcl
                  · simp only [Option.some.injEq, Prod.mk.injEq] at hcl
                    rcases hcl with ⟨_, hm1, _⟩
                    subst hm1
                    exact ⟨⟨InvCR_congr m _ rfl rfl rfl hCR,
                            InvPS_congr m _ rfl rfl hPS⟩, fun r0 hr0 => hr0⟩
                  · simp only [Option.some.injEq, Prod.mk.injEq] at hcl
                    rcases hcl with ⟨_, hm1, _⟩
                    subst hm1
                    exact ⟨⟨InvCR_congr m _ rfl rfl rfl hCR,
                            InvPS_congr m _ rfl rfl hPS⟩, fun r0 hr0 => hr0⟩
  | dropMuxer =>
      simp only [runOp] at h
      split at h
      · next hn =>
          have hnone : m.close_reason = none := by
            rcases hx : m.close_reason with _ | r0
            · rfl
            · rw [hx] at hn
              simp at hn
          obtain ⟨_, _, _, _, _, s6, s7, s8, s9⟩ := shutdown_facts m RESET m' es h
          refine ⟨⟨⟨fun _ => s7, ?_, ?_⟩, fun id hid => s6⟩, ?_⟩
          · by_cases hic : m.connection.isClosed = true
            · rw [s9 hic]
              show clCount m.connection.queue ≤ 1
              exact hCR.2.1
            · have hic' : m.connection.isClosed = false := by
                revert hic
                cases m.connection.isClosed <;> simp
              rw [(s8 hic').2.1]
              simp [clCount]
          · intro r' hmem
            by_cases hic : m.connection.isClosed = true
            · rw [s9 hic] at hmem ⊢
              refine ⟨hnone, (hCR.2.2 r' hmem).2⟩
            · have hic' : m.connection.isClosed = false := by
                revert hic
                cases m.connection.isClosed <;> simp
              rw [(s8 hic').2.1] at hmem
              cases hmem
          · intro r0 hr0
            rw [hnone] at hr0
            cases hr0
      · next hn =>
          simp only [Option.some.injEq, Prod.mk.injEq] at h
          rcases h with ⟨hm, _⟩
          subst hm
          exact ⟨⟨hCR, hPS⟩, fun r0 hr0 => hr0⟩
  | flushOp =>
      simp only [runOp] at h
      simp only [Option.some.injEq, Prod.mk.injEq] at h
      rcases h with ⟨hm, _⟩
      subst hm
      exact ⟨⟨hCR, hPS⟩, fun r0 hr0 => hr0⟩
  | parkDriver w =>
      simp only [runOp] at h
      simp only [Option.some.injEq, Prod.mk.injEq] at h
      rcases h with ⟨hm, _⟩
      subst hm
      exact ⟨⟨InvCR_congr m _ rfl rfl rfl hCR,
              InvPS_congr m _ rfl rfl hPS⟩, fun r0 hr0 => hr0⟩
  | markDrained =>
      simp only [runOp] at h
      split at h
      · next hic =>
          simp only [Option.some.injEq, Prod.mk.injEq] at h
          rcases h with ⟨hm, _⟩
          subst hm
          exact ⟨⟨InvCR_congr m _ rfl rfl rfl hCR,
                  InvPS_congr m _ rfl rfl hPS⟩, fun r0 hr0 => hr0⟩
      · cases h

theorem MuxInv_new : MuxInv Muxer.new := by
  refine ⟨⟨?_, ?_, ?_⟩, ?_⟩
  · intro h
    simp [Muxer.new] at h
  · simp [Muxer.new, clCount]
  · intro r hr
    simp [Muxer.new] at hr
  · intro id hid
    simp [Muxer.new] at hid

theorem runOps_inv (ops : List Op) : ∀ (m m' : Muxer), MuxInv m →
    runOps m ops = some m' → MuxInv m' := by
  induction ops with
  | nil =>
      intro m m' hI h
      simp [runOps] at h
      rw [← h]
      exact hI
  | cons op rest ih =>
      intro m m' hI h
      rcases hop : runOp m op with _ | ⟨m1, es1⟩
      · simp [runOps, hop] at h
      · simp only [runOps] at h
        rw [hop] at h
        exact ih m1 m' (step_facts m op m1 es1 hI hop).1 h

theorem reachable_inv (m : Muxer) (h : Reachable m) : MuxInv m := by
  rcases h with ⟨ops, hops⟩
  exact runOps_inv ops Muxer.new m MuxInv_new hops

/- ------------------------------------------------------------------ -/
/- C1: close_reason is monotone                                        -/
/- ------------------------------------------------------------------ -/

/-- C1: in every reachable execution, once close_reason is Some value, no
subsequent operation changes it: every step of the system (facade calls,
event delivery, driver event processing, close, Drop) taken from a
reachable state preserves an already-latched close reason. -/
theorem close_reason_write_once (m : Muxer) (op : Op) (m' : Muxer) (es : List Effect)
    (r : ConnectionError) (hR : Reachable m) (h : runOp m op = some (m', es))
    (hr : m.close_reason = some r) : m'.close_reason = some r :=
  (step_facts m op m' es (reachable_inv m hR) h).2 r hr

/-- Witness for C1: a reachable state whose reason was latched by a
ConnectionLost event keeps it across a subsequent close call. -/
theorem close_reason_write_once_witness :
    Reachable stLost ∧ stLost.close_reason = some (.Other 3) ∧
    (stepSt stLost (.closeOp 1)).close_reason = some (.Other 3) := by
  refine ⟨⟨[.inject (.connectionLost (.Other 3)), .procEvents], by decide⟩, by decide, ?_⟩
  exact close_reason_write_once stLost (.closeOp 1) (stepSt stLost (.closeOp 1))
    (stepEffs stLost (.closeOp 1)) (.Other 3)
    ⟨[.inject (.connectionLost (.Other 3)), .procEvents], by decide⟩
    (by decide) (by decide)

/- ------------------------------------------------------------------ -/
/- C4: pending_stream excludes waiting connectors                      -/
/- ------------------------------------------------------------------ -/

/-- C4: in every reachable muxer state, pending_stream is Some only when
connectors is empty: no operation or event handler ever leaves both a
cached pending outbound stream and a non-empty queue of pending
outbound-open requesters. -/
theorem pending_stream_excludes_connectors (m : Muxer) (id : StreamId)
    (hR : Reachable m) (hp : m.pending_stream = some id) : m.connectors = [] :=
  (reachable_inv m hR).2 id hp

/-- Witness for C4: a reachable state with a cached pending stream,
obtained by dropping an outbound-open future before the stream became
available, indeed has no connectors. -/
theorem pending_stream_excludes_connectors_witness :
    Reachable stPending ∧ stPending.pending_stream = some 0 ∧
    stPending.connectors = [] := by
  refine ⟨⟨[.openOutbound 5, .dropOutbound 5, .inject .streamAvailableBi, .procEvents],
           by decide⟩, by decide, ?_⟩
  exact pending_stream_excludes_connectors stPending 0
    ⟨[.openOutbound 5, .dropOutbound 5, .inject .streamAvailableBi, .procEvents],
     by decide⟩ (by decide)

end QuicMux
